import Mathlib

/-!
Shallow embedding of `daily_job_search_automation/job_searcher.py`.

The program is a single-shot batch job: it fetches a persisted JSON array of
previously seen links from a repository file (GitHub Contents API), runs two
fixed search queries, filters out items whose link is missing or already seen,
emails the new items, and writes the updated sorted link set back with the
fetched blob sha as the optimistic-concurrency precondition.

External effects (HTTP fetch outcome, per-query search outcomes, email
transport outcome, save outcome) are modelled as explicit inputs to `run`;
the observable effects (whether the email body was built and sent, and the
arguments of the repo-file put) are returned in a `RunResult` record.
-/

/-- Python truthiness of `os.environ.get(...)`: `None` and `""` are falsy. -/
def truthy : Option String → Bool
  | none => false
  | some s => decide (s ≠ "")

/-- One search result item as consumed by `run` (`it.get("link")` etc.);
each field may be absent in the provider's JSON. -/
structure Item where
  link : Option String
  title : Option String
  snippet : Option String
deriving DecidableEq, Repr

/-- One entry of `found_results`: the dict
`{"query": q, "title": title, "snippet": snippet, "link": link}` built at
`job_searcher.py:222`. -/
structure FoundResult where
  query : String
  title : Option String
  snippet : Option String
  link : String
deriving DecidableEq, Repr

/-- The mutable loop state of `run`: `sent_set`, `found_results`,
`added_links` (`job_searcher.py:200-202`). The Python `set` is modelled as a
duplicate-free list; only membership and the final sorted listing are used. -/
structure LoopState where
  sent_set : List String
  found_results : List FoundResult
  added_links : List String
deriving DecidableEq, Repr

/-- Result of `json.loads` on the decoded blob, as far as `run` inspects it:
either a JSON array (its elements, the persisted link strings) or any
non-array JSON value. -/
inductive JVal where
  | jlist (xs : List String)
  | jother
deriving DecidableEq, Repr

/-- The repo-file object returned by the GitHub Contents API on status 200:
its `sha` field and the parse outcome of its base64 `content`
(`none` models a `json.loads` failure on the decoded bytes). -/
structure RemoteObj where
  sha : Option String
  content : Option JVal
deriving DecidableEq, Repr

/-- An HTTP response of the store `GET`, as far as `get_repo_file` inspects
it: a status code and (when status is 200) the parsed body. -/
structure HttpResp where
  status : Nat
  body : RemoteObj
deriving DecidableEq, Repr

/-- The module-level environment configuration (`job_searcher.py:34-46`),
restricted to the values `run` and the email path test for truthiness. -/
structure Config where
  gcp_api_key : Option String
  cse_id : Option String
  from_email : Option String
  to_email : Option String
  smtp_host : Option String
  smtp_user : Option String
  smtp_pass : Option String
  sendgrid_api_key : Option String
deriving DecidableEq, Repr

/-- How `send_email` fails: the SMTP-credentials `RuntimeError`
(`job_searcher.py:106-107`) or an underlying transport error. -/
inductive EmailErr where
  | missingConfig
  | transport
deriving DecidableEq, Repr

/-- The exceptions `run` can terminate with. -/
inductive RunError where
  | configError
  | storeError
  | notifyError (e : EmailErr)
  | saveError
deriving DecidableEq, Repr

instance {ε α : Type} [DecidableEq ε] [DecidableEq α] :
    DecidableEq (Except ε α) := fun x y =>
  match x, y with
  | .ok a, .ok b => decidable_of_iff (a = b) (by simp)
  | .ok _, .error _ => isFalse (by simp)
  | .error _, .ok _ => isFalse (by simp)
  | .error a, .error b => decidable_of_iff (a = b) (by simp)

/-- Observable outcome of one `run`: normal return or exception, the
`found_results` list handed to the notifier if `send_email` was invoked, and
the `(new_list, sha)` arguments of `save_sent_links` if it was invoked. -/
structure RunResult where
  outcome : Except RunError Unit
  notified : Option (List FoundResult)
  putCall : Option (List String × Option String)
deriving DecidableEq, Repr

def query1 : String :=
  "(\"entry level\" OR \"junior\") \"data analyst\" (\"startup\" OR \"early-stage\" OR \"seed\")"

def query2 : String :=
  "(\"entry level\" OR \"junior\") \"software engineer\" (\"startup\" OR \"early-stage\" OR \"seed\")"

/-- The fixed query list (`job_searcher.py:48-51`). -/
def QUERIES : List String := [query1, query2]

/-- `get_repo_file` (`job_searcher.py:75-86`): status 200 returns the parsed
body, 404 returns `None`, `raise_for_status` raises exactly on 4xx/5xx, and
any remaining status falls through to the final `return None`. -/
def get_repo_file (r : HttpResp) : Except Unit (Option RemoteObj) :=
  if r.status = 200 then .ok (some r.body)
  else if r.status = 404 then .ok none
  else if 400 ≤ r.status ∧ r.status < 600 then .error ()
  else .ok none

/-- The `existing_links` extraction of `run` (`job_searcher.py:191-198`):
missing file, undecodable content, or a non-array JSON value all yield `[]`. -/
def existingLinksOf : Option RemoteObj → List String
  | none => []
  | some o =>
    match o.content with
    | some (JVal.jlist xs) => xs
    | _ => []

/-- The `remote_sha` extraction of `run` (`job_searcher.py:190-192`). -/
def remoteShaOf : Option RemoteObj → Option String
  | none => none
  | some o => o.sha

/-- `load_sent_links` (`job_searcher.py:146-159`): fetch the repo file and
decode it, with the same empty-on-malformed behaviour as `run`. -/
def load_sent_links (r : HttpResp) : Except Unit (List String) :=
  (get_repo_file r).map existingLinksOf

/-- The per-item body of the search loop (`job_searcher.py:211-229`): skip
items with a falsy link, skip links already in `sent_set`, otherwise append
to `found_results`, `sent_set` and `added_links`. -/
def processItem (q : String) (st : LoopState) (it : Item) : LoopState :=
  match it.link with
  | none => st
  | some link =>
    if link = "" then st
    else if link ∈ st.sent_set then st
    else
      { sent_set := st.sent_set ++ [link]
        found_results := st.found_results ++ [⟨q, it.title, it.snippet, link⟩]
        added_links := st.added_links ++ [link] }

/-- The `try/except` around `google_custom_search` (`job_searcher.py:206-210`):
a raised exception makes the query's item list empty. -/
def itemsOf : Except Unit (List Item) → List Item
  | .ok items => items
  | .error _ => []

/-- One iteration of the outer query loop (`job_searcher.py:205-229`). -/
def processQuery (search : String → Except Unit (List Item)) (st : LoopState)
    (q : String) : LoopState :=
  (itemsOf (search q)).foldl (processItem q) st

/-- The whole search loop of `run` starting from
`sent_set = set(existing_links)` (`job_searcher.py:200-229`). -/
def runLoop (search : String → Except Unit (List Item))
    (existing_links : List String) : LoopState :=
  QUERIES.foldl (processQuery search) ⟨existing_links.dedup, [], []⟩

/-- `send_email` (`job_searcher.py:138-142`): SendGrid when its key is
truthy, otherwise SMTP, which first raises if host/user/pass are not all
set (`job_searcher.py:106-107`); `transportOk` is the outcome of the actual
network send. -/
def send_email (cfg : Config) (transportOk : Bool) : Except EmailErr Unit :=
  if truthy cfg.sendgrid_api_key then
    if transportOk then .ok () else .error .transport
  else if truthy cfg.smtp_host && truthy cfg.smtp_user && truthy cfg.smtp_pass then
    if transportOk then .ok () else .error .transport
  else .error .missingConfig

/-- Lexicographic comparison of character lists by code point: the order
Python's `sorted` uses on strings. -/
def charListLe : List Char → List Char → Bool
  | [], _ => true
  | _ :: _, [] => false
  | a :: as, b :: bs =>
    if a < b then true
    else if b < a then false
    else charListLe as bs

/-- Python's `s1 <= s2` on strings: lexicographic by code point. -/
def strLe (a b : String) : Bool := charListLe a.data b.data

/-- Python's `sorted` on the link strings (`sorted(list(sent_set))`,
`job_searcher.py:243`): ascending lexicographic order, realised by a stable
sort. -/
def sortedLinks (l : List String) : List String :=
  l.insertionSort (fun a b => strLe a b = true)

/-- `run` (`job_searcher.py:181-251`). Inputs: the configuration, the store
`GET` response, the per-query search outcome (raised exception or item
list), and whether the email transport and the repo-file put succeed. -/
def run (cfg : Config) (resp : HttpResp)
    (search : String → Except Unit (List Item))
    (emailOk saveOk : Bool) : RunResult :=
  if !(truthy cfg.gcp_api_key && truthy cfg.cse_id) then
    ⟨.error .configError, none, none⟩
  else if !(truthy cfg.from_email && truthy cfg.to_email) then
    ⟨.error .configError, none, none⟩
  else
    match get_repo_file resp with
    | .error _ => ⟨.error .storeError, none, none⟩
    | .ok remote_obj =>
      if (runLoop search (existingLinksOf remote_obj)).found_results = [] then
        ⟨.ok (), none, none⟩
      else
        match send_email cfg emailOk with
        | .error e =>
          ⟨.error (.notifyError e),
           some (runLoop search (existingLinksOf remote_obj)).found_results, none⟩
        | .ok _ =>
          if saveOk then
            ⟨.ok (), some (runLoop search (existingLinksOf remote_obj)).found_results,
             some (sortedLinks (runLoop search (existingLinksOf remote_obj)).sent_set,
               remoteShaOf remote_obj)⟩
          else
            ⟨.error .saveError,
             some (runLoop search (existingLinksOf remote_obj)).found_results,
             some (sortedLinks (runLoop search (existingLinksOf remote_obj)).sent_set,
               remoteShaOf remote_obj)⟩

/-! Concrete inputs for the end-to-end scenarios of the spec. -/

/-- A configuration with every required value present (SMTP transport). -/
def cfgFull : Config :=
  ⟨some "gk", some "cx", some "from@example.com", some "to@example.com",
   some "smtp.example.com", some "user", some "pass", none⟩

/-- A configuration whose transport credentials are all absent. -/
def cfgNoTransport : Config :=
  ⟨some "gk", some "cx", some "from@example.com", some "to@example.com",
   none, none, none, none⟩

def job1 : String := "https://a.com/job1"

def job2 : String := "https://a.com/job2"

/-- Store response: prior state `["https://a.com/job1"]`, version `"v1"`. -/
def respV1 : HttpResp := ⟨200, ⟨some "v1", some (JVal.jlist [job1])⟩⟩

/-- Store response: the dedupe file does not exist upstream. -/
def resp404 : HttpResp := ⟨404, ⟨none, none⟩⟩

/-- Search outcomes of the spec's end-to-end scenario: query 1 returns job1
(already seen) and job2, query 2 returns job2 again. -/
def scenarioSearch : String → Except Unit (List Item) := fun q =>
  if q = query1 then
    .ok [⟨some job1, some "Old", some "seen before"⟩, ⟨some job2, some "X", some "Y"⟩]
  else
    .ok [⟨some job2, some "X again", some "Y again"⟩]

/-- Search outcome where every query returns no items. -/
def emptySearch : String → Except Unit (List Item) := fun _ => .ok []

/-- Whether an item passes the `if not link: continue` guard
(`job_searcher.py:215-216`). -/
def hasLink (it : Item) : Bool :=
  match it.link with
  | none => false
  | some l => decide (l ≠ "")

/-- A search outcome with the link-less items of each result list removed. -/
def filterSearch (search : String → Except Unit (List Item)) :
    String → Except Unit (List Item) := fun q =>
  match search q with
  | .ok items => .ok (items.filter hasLink)
  | .error e => .error e

/-- A search outcome patched so that query `q0` returns an empty result list
instead of raising. -/
def patchEmpty (search : String → Except Unit (List Item)) (q0 : String) :
    String → Except Unit (List Item) := fun q =>
  if q = q0 then .ok [] else search q

/-! ## Loop invariant and helper lemmas -/

/-- Invariant of the search loop relative to the fetched link list `base`:
the in-memory set has no duplicates, the new-item links have no duplicates,
the set is exactly `base` plus the new-item links, and no new-item link was
already in `base`. -/
structure LoopInv (base : List String) (st : LoopState) : Prop where
  nodup_sent : st.sent_set.Nodup
  nodup_found : (st.found_results.map FoundResult.link).Nodup
  mem_sent_iff : ∀ l, l ∈ st.sent_set ↔
    (l ∈ base ∨ l ∈ st.found_results.map FoundResult.link)
  found_notin_base : ∀ r ∈ st.found_results, r.link ∉ base

theorem loopInv_init (base : List String) : LoopInv base ⟨base.dedup, [], []⟩ := by
  refine ⟨base.nodup_dedup, List.nodup_nil, fun l => ?_, by simp⟩
  simp [List.mem_dedup]

theorem loopInv_processItem {base : List String} {st : LoopState}
    (h : LoopInv base st) (q : String) (it : Item) :
    LoopInv base (processItem q st it) := by
  obtain ⟨lnk, ttl, snp⟩ := it
  cases lnk with
  | none => exact h
  | some link =>
    show LoopInv base (if link = "" then st else if link ∈ st.sent_set then st else _)
    split_ifs with h1 h2
    · exact h
    · exact h
    · have hnb : link ∉ base := fun hb => h2 ((h.mem_sent_iff link).2 (Or.inl hb))
      have hnf : link ∉ st.found_results.map FoundResult.link :=
        fun hf => h2 ((h.mem_sent_iff link).2 (Or.inr hf))
      refine ⟨?_, ?_, fun l => ?_, ?_⟩
      · simp [List.nodup_append, h.nodup_sent, h2]
      · simpa [List.nodup_append, h.nodup_found] using hnf
      · simp only [List.map_append, List.mem_append, List.map_cons, List.map_nil,
          List.mem_singleton, h.mem_sent_iff l]
        tauto
      · intro r hr
        rcases List.mem_append.1 hr with hr | hr
        · exact h.found_notin_base r hr
        · simp only [List.mem_singleton] at hr
          subst hr
          exact hnb

theorem loopInv_foldItems {base : List String} (q : String) :
    ∀ (items : List Item) (st : LoopState), LoopInv base st →
      LoopInv base (items.foldl (processItem q) st)
  | [], _, h => h
  | it :: its, st, h => loopInv_foldItems q its _ (loopInv_processItem h q it)

theorem loopInv_processQuery {base : List String}
    (search : String → Except Unit (List Item)) {st : LoopState}
    (h : LoopInv base st) (q : String) :
    LoopInv base (processQuery search st q) :=
  loopInv_foldItems q _ st h

theorem loopInv_foldQueries {base : List String}
    (search : String → Except Unit (List Item)) :
    ∀ (qs : List String) (st : LoopState), LoopInv base st →
      LoopInv base (qs.foldl (processQuery search) st)
  | [], _, h => h
  | q :: qs, st, h =>
    loopInv_foldQueries search qs _ (loopInv_processQuery search h q)

theorem loopInv_runLoop (search : String → Except Unit (List Item))
    (existing : List String) :
    LoopInv existing (runLoop search existing) :=
  loopInv_foldQueries search QUERIES _ (loopInv_init existing)

theorem mem_sent_processItem {l : String} (q : String) (st : LoopState)
    (it : Item) (h : l ∈ st.sent_set) : l ∈ (processItem q st it).sent_set := by
  obtain ⟨lnk, ttl, snp⟩ := it
  cases lnk with
  | none => exact h
  | some link =>
    show l ∈ (if link = "" then st else if link ∈ st.sent_set then st else _).sent_set
    split_ifs with h1 h2
    · exact h
    · exact h
    · exact List.mem_append.2 (Or.inl h)

theorem mem_sent_foldItems {l : String} (q : String) :
    ∀ (items : List Item) (st : LoopState), l ∈ st.sent_set →
      l ∈ (items.foldl (processItem q) st).sent_set
  | [], _, h => h
  | it :: its, st, h =>
    mem_sent_foldItems q its _ (mem_sent_processItem q st it h)

theorem mem_sent_foldQueries {l : String}
    (search : String → Except Unit (List Item)) :
    ∀ (qs : List String) (st : LoopState), l ∈ st.sent_set →
      l ∈ (qs.foldl (processQuery search) st).sent_set
  | [], _, h => h
  | q :: qs, st, h =>
    mem_sent_foldQueries search qs _ (mem_sent_foldItems q _ st h)

theorem link_mem_sent_processItem {L : String} (q : String) (st : LoopState)
    {it : Item} (hl : it.link = some L) (hne : L ≠ "") :
    L ∈ (processItem q st it).sent_set := by
  obtain ⟨lnk, ttl, snp⟩ := it
  simp only at hl
  subst hl
  show L ∈ (if L = "" then st else if L ∈ st.sent_set then st else _).sent_set
  split_ifs with h1 h2
  · exact absurd h1 hne
  · exact h2
  · exact List.mem_append.2 (Or.inr (List.mem_singleton.2 rfl))

theorem link_mem_sent_foldItems {L : String} (q : String) {it : Item}
    (hl : it.link = some L) (hne : L ≠ "") :
    ∀ (items : List Item) (st : LoopState), it ∈ items →
      L ∈ (items.foldl (processItem q) st).sent_set
  | i :: its, st, hmem => by
    rcases List.mem_cons.1 hmem with heq | htl
    · subst heq
      exact mem_sent_foldItems q its _ (link_mem_sent_processItem q st hl hne)
    · exact link_mem_sent_foldItems q hl hne its _ htl

theorem link_mem_sent_foldQueries {L : String}
    (search : String → Except Unit (List Item)) {q0 : String} {it : Item}
    (hit : it ∈ itemsOf (search q0)) (hl : it.link = some L) (hne : L ≠ "") :
    ∀ (qs : List String) (st : LoopState), q0 ∈ qs →
      L ∈ (qs.foldl (processQuery search) st).sent_set
  | q :: qs, st, hmem => by
    rcases List.mem_cons.1 hmem with heq | htl
    · subst heq
      exact mem_sent_foldQueries search qs _
        (link_mem_sent_foldItems q0 hl hne _ _ hit)
    · exact link_mem_sent_foldQueries search hit hl hne qs _ htl

/-- A link returned by any query, non-empty and not previously seen, ends up
among the new-item links of the loop. -/
theorem link_mem_found_runLoop {search : String → Except Unit (List Item)}
    {existing : List String} {L q0 : String} {it : Item}
    (hq : q0 ∈ QUERIES) (hit : it ∈ itemsOf (search q0)) (hl : it.link = some L)
    (hne : L ≠ "") (hnew : L ∉ existing) :
    L ∈ (runLoop search existing).found_results.map FoundResult.link := by
  have hsent : L ∈ (runLoop search existing).sent_set :=
    link_mem_sent_foldQueries search hit hl hne QUERIES _ hq
  rcases ((loopInv_runLoop search existing).mem_sent_iff L).1 hsent with hb | hf
  · exact absurd hb hnew
  · exact hf

/-! ## Skip and congruence lemmas -/

/-- An item whose link is absent, empty, or already in the current set is a
no-op for the loop state. -/
theorem processItem_skip (q : String) (st : LoopState) {it : Item}
    (h : it.link = none ∨ it.link = some "" ∨
      ∃ l, it.link = some l ∧ l ∈ st.sent_set) :
    processItem q st it = st := by
  obtain ⟨lnk, ttl, snp⟩ := it
  simp only at h
  rcases h with h | h | ⟨l, hl, hmem⟩
  · subst h; rfl
  · subst h
    simp [processItem]
  · subst hl
    by_cases he : l = "" <;> simp [processItem, he, hmem]

theorem foldItems_skip {base : List String} (q : String) :
    ∀ (items : List Item) (st : LoopState), base ⊆ st.sent_set →
      (∀ it ∈ items, it.link = none ∨ it.link = some "" ∨
        ∃ l, it.link = some l ∧ l ∈ base) →
      items.foldl (processItem q) st = st
  | [], _, _, _ => rfl
  | it :: its, st, hsub, h => by
    have hskip : processItem q st it = st := by
      refine processItem_skip q st ?_
      rcases h it (List.mem_cons_self it its) with h1 | h1 | ⟨l, hl, hmem⟩
      · exact Or.inl h1
      · exact Or.inr (Or.inl h1)
      · exact Or.inr (Or.inr ⟨l, hl, hsub hmem⟩)
    rw [List.foldl_cons, hskip,
      foldItems_skip q its st hsub (fun i hi => h i (List.mem_cons_of_mem it hi))]

theorem foldQueries_skip {base : List String}
    (search : String → Except Unit (List Item)) :
    ∀ (qs : List String) (st : LoopState), base ⊆ st.sent_set →
      (∀ q ∈ qs, ∀ it ∈ itemsOf (search q), it.link = none ∨ it.link = some "" ∨
        ∃ l, it.link = some l ∧ l ∈ base) →
      qs.foldl (processQuery search) st = st
  | [], _, _, _ => rfl
  | q :: qs, st, hsub, h => by
    have hskip : processQuery search st q = st :=
      foldItems_skip q _ st hsub (h q (List.mem_cons_self q qs))
    rw [List.foldl_cons, hskip,
      foldQueries_skip search qs st hsub (fun p hp => h p (List.mem_cons_of_mem q hp))]

/-- If every returned item is link-less or already seen, the loop discovers
nothing at all. -/
theorem runLoop_skip {search : String → Except Unit (List Item)}
    {existing : List String}
    (h : ∀ q ∈ QUERIES, ∀ it ∈ itemsOf (search q),
      it.link = none ∨ it.link = some "" ∨
      ∃ l, it.link = some l ∧ l ∈ existing) :
    runLoop search existing = ⟨existing.dedup, [], []⟩ :=
  foldQueries_skip search QUERIES _ (fun _ hl => List.mem_dedup.2 hl) h

theorem foldQueries_congr {s1 s2 : String → Except Unit (List Item)}
    (h : ∀ st q, processQuery s1 st q = processQuery s2 st q) :
    ∀ (qs : List String) (st : LoopState),
      qs.foldl (processQuery s1) st = qs.foldl (processQuery s2) st
  | [], _ => rfl
  | q :: qs, st => by
    rw [List.foldl_cons, List.foldl_cons, h, foldQueries_congr h qs]

theorem runLoop_congr {s1 s2 : String → Except Unit (List Item)}
    (h : ∀ st q, processQuery s1 st q = processQuery s2 st q) :
    ∀ existing : List String, runLoop s1 existing = runLoop s2 existing :=
  fun existing => foldQueries_congr h QUERIES _

/-- `run` observes the search outcomes only through the query loop. -/
theorem run_search_congr {cfg : Config} {resp : HttpResp}
    {s1 s2 : String → Except Unit (List Item)} {emailOk saveOk : Bool}
    (h : ∀ st q, processQuery s1 st q = processQuery s2 st q) :
    run cfg resp s1 emailOk saveOk = run cfg resp s2 emailOk saveOk := by
  unfold run
  simp only [runLoop_congr h]

/-- Filtering the link-less items out of every result list does not change
the loop. -/
theorem foldItems_filter (q : String) :
    ∀ (items : List Item) (st : LoopState),
      (items.filter hasLink).foldl (processItem q) st =
        items.foldl (processItem q) st
  | [], _ => rfl
  | it :: its, st => by
    cases hg : hasLink it with
    | true => rw [List.filter_cons_of_pos hg, List.foldl_cons, List.foldl_cons,
        foldItems_filter q its]
    | false =>
      have hskip : processItem q st it = st := by
        refine processItem_skip q st ?_
        unfold hasLink at hg
        rcases hl : it.link with _ | l
        · exact Or.inl rfl
        · rw [hl] at hg
          simp only [decide_not, Bool.not_eq_false', decide_eq_true_eq] at hg
          exact Or.inr (Or.inl (by simp [hl, hg]))
      rw [List.filter_cons_of_neg (by simp [hg]), List.foldl_cons, hskip,
        foldItems_filter q its]

/-! ## Run-level characterisations -/

/-- If `save_sent_links` was invoked, the fetch succeeded, new items were
found, and the put arguments are the sorted final set with the fetched sha. -/
theorem run_putCall_eq {cfg : Config} {resp : HttpResp}
    {search : String → Except Unit (List Item)} {emailOk saveOk : Bool}
    {p : List String × Option String}
    (h : (run cfg resp search emailOk saveOk).putCall = some p) :
    ∃ ro, get_repo_file resp = .ok ro ∧
      (runLoop search (existingLinksOf ro)).found_results ≠ [] ∧
      p = (sortedLinks (runLoop search (existingLinksOf ro)).sent_set,
        remoteShaOf ro) := by
  unfold run at h
  split at h
  · simp at h
  split at h
  · simp at h
  split at h
  · simp at h
  rename_i ro heq
  split at h
  · simp at h
  rename_i hne
  split at h
  · simp at h
  split at h <;>
    simp only [Option.some.injEq] at h <;>
    exact ⟨ro, heq, hne, h.symm⟩

/-- If `send_email` was invoked, the fetch succeeded and the notified list is
exactly the (non-empty) new-items list of the loop. -/
theorem run_notified_eq {cfg : Config} {resp : HttpResp}
    {search : String → Except Unit (List Item)} {emailOk saveOk : Bool}
    {fr : List FoundResult}
    (h : (run cfg resp search emailOk saveOk).notified = some fr) :
    ∃ ro, get_repo_file resp = .ok ro ∧
      fr = (runLoop search (existingLinksOf ro)).found_results ∧
      fr ≠ [] := by
  unfold run at h
  split at h
  · simp at h
  split at h
  · simp at h
  split at h
  · simp at h
  rename_i ro heq
  split at h
  · simp at h
  rename_i hne
  split at h
  · simp only [Option.some.injEq] at h
    exact ⟨ro, heq, h.symm, h ▸ hne⟩
  split at h <;>
    simp only [Option.some.injEq] at h <;>
    exact ⟨ro, heq, h.symm, h ▸ hne⟩

/-- With valid base configuration and a successful fetch, `run` reduces to
its notify/persist tail. -/
theorem run_eq_of_valid {cfg : Config} {resp : HttpResp}
    {search : String → Except Unit (List Item)} {emailOk saveOk : Bool}
    {ro : Option RemoteObj}
    (h1 : truthy cfg.gcp_api_key = true) (h2 : truthy cfg.cse_id = true)
    (h3 : truthy cfg.from_email = true) (h4 : truthy cfg.to_email = true)
    (hro : get_repo_file resp = .ok ro) :
    run cfg resp search emailOk saveOk =
      (if (runLoop search (existingLinksOf ro)).found_results = [] then
        ⟨.ok (), none, none⟩
      else
        match send_email cfg emailOk with
        | .error e =>
          ⟨.error (.notifyError e),
           some (runLoop search (existingLinksOf ro)).found_results, none⟩
        | .ok _ =>
          if saveOk then
            ⟨.ok (), some (runLoop search (existingLinksOf ro)).found_results,
             some (sortedLinks (runLoop search (existingLinksOf ro)).sent_set,
               remoteShaOf ro)⟩
          else
            ⟨.error .saveError,
             some (runLoop search (existingLinksOf ro)).found_results,
             some (sortedLinks (runLoop search (existingLinksOf ro)).sent_set,
               remoteShaOf ro)⟩ : RunResult) := by
  unfold run
  rw [h1, h2, h3, h4, hro]
  rfl

/-- When `send_email` was going to be invoked, it is invoked with the loop's
new-items list whatever its own outcome and the save outcome. -/
theorem run_notified_of_found {cfg : Config} {resp : HttpResp}
    {search : String → Except Unit (List Item)} {emailOk saveOk : Bool}
    {ro : Option RemoteObj}
    (h1 : truthy cfg.gcp_api_key = true) (h2 : truthy cfg.cse_id = true)
    (h3 : truthy cfg.from_email = true) (h4 : truthy cfg.to_email = true)
    (hro : get_repo_file resp = .ok ro)
    (hne : (runLoop search (existingLinksOf ro)).found_results ≠ []) :
    (run cfg resp search emailOk saveOk).notified =
      some (runLoop search (existingLinksOf ro)).found_results := by
  rw [run_eq_of_valid h1 h2 h3 h4 hro, if_neg hne]
  cases send_email cfg emailOk with
  | error e => rfl
  | ok u => cases saveOk <;> rfl

/-! ## Order facts for the persisted listing -/

theorem charListLe_total : ∀ as bs, charListLe as bs = true ∨ charListLe bs as = true
  | [], _ => Or.inl rfl
  | _ :: _, [] => Or.inr rfl
  | a :: as, b :: bs => by
    simp only [charListLe]
    rcases lt_trichotomy a b with h | h | h
    · exact Or.inl (by simp [h])
    · subst h
      simp only [lt_irrefl, if_false]
      exact charListLe_total as bs
    · exact Or.inr (by simp [h])

theorem charListLe_trans :
    ∀ as bs cs, charListLe as bs = true → charListLe bs cs = true →
      charListLe as cs = true
  | [], _, _, _, _ => rfl
  | _ :: _, [], _, h1, _ => by simp [charListLe] at h1
  | _ :: _, _ :: _, [], _, h2 => by simp [charListLe] at h2
  | a :: as, b :: bs, c :: cs, h1, h2 => by
    simp only [charListLe] at h1 h2 ⊢
    rcases lt_trichotomy a b with hab | hab | hab
    · rw [if_pos hab] at h1
      rcases lt_trichotomy b c with hbc | hbc | hbc
      · rw [if_pos (lt_trans hab hbc)]
      · subst hbc
        rw [if_pos hab]
      · rw [if_neg (asymm hbc), if_pos hbc] at h2
        exact absurd h2 (by simp)
    · subst hab
      rcases lt_trichotomy a c with hac | hac | hac
      · rw [if_pos hac]
      · subst hac
        rw [if_neg (lt_irrefl a), if_neg (lt_irrefl a)] at h1 h2 ⊢
        exact charListLe_trans _ _ _ h1 h2
      · rw [if_neg (asymm hac), if_pos hac] at h2
        exact absurd h2 (by simp)
    · rw [if_neg (asymm hab), if_pos hab] at h1
      exact absurd h1 (by simp)

instance : IsTotal String (fun a b => strLe a b = true) :=
  ⟨fun a b => charListLe_total a.data b.data⟩

instance : IsTrans String (fun a b => strLe a b = true) :=
  ⟨fun a b c => charListLe_trans a.data b.data c.data⟩

theorem sortedLinks_pairwise (l : List String) :
    (sortedLinks l).Pairwise (fun a b => strLe a b = true) :=
  List.sorted_insertionSort _ l

theorem sortedLinks_perm (l : List String) : List.Perm (sortedLinks l) l :=
  List.perm_insertionSort _ l

/-! ## Claim theorems -/

/-- C3: if new items were found and the notification send fails, the run
fails fatally with the notify error, `save_sent_links` is never invoked (so
the persisted set stays as fetched), the failed send was attempted with
exactly the new-items list, and any rerun against the same fetched state and
search results offers the same new-items list again. -/
theorem C3_notify_failure_no_put {cfg : Config} {resp : HttpResp}
    {search : String → Except Unit (List Item)} {emailOk saveOk : Bool}
    {ro : Option RemoteObj} {e : EmailErr}
    (h1 : truthy cfg.gcp_api_key = true) (h2 : truthy cfg.cse_id = true)
    (h3 : truthy cfg.from_email = true) (h4 : truthy cfg.to_email = true)
    (hro : get_repo_file resp = .ok ro)
    (hfound : (runLoop search (existingLinksOf ro)).found_results ≠ [])
    (hsend : send_email cfg emailOk = .error e) :
    (run cfg resp search emailOk saveOk).outcome = .error (.notifyError e) ∧
    (run cfg resp search emailOk saveOk).putCall = none ∧
    (run cfg resp search emailOk saveOk).notified =
      some (runLoop search (existingLinksOf ro)).found_results ∧
    (∀ emailOk' saveOk' : Bool, (run cfg resp search emailOk' saveOk').notified =
      some (runLoop search (existingLinksOf ro)).found_results) := by
  rw [run_eq_of_valid h1 h2 h3 h4 hro, if_neg hfound, hsend]
  exact ⟨rfl, rfl, rfl,
    fun emailOk' saveOk' => run_notified_of_found h1 h2 h3 h4 hro hfound⟩

/-- C3 witness: the scenario state with a failing transport. -/
theorem C3_notify_failure_no_put_witness :
    (run cfgFull respV1 scenarioSearch false true).outcome =
      .error (.notifyError .transport) ∧
    (run cfgFull respV1 scenarioSearch false true).putCall = none ∧
    (run cfgFull respV1 scenarioSearch false true).notified =
      some (runLoop scenarioSearch
        (existingLinksOf (some respV1.body))).found_results ∧
    (∀ emailOk' saveOk' : Bool,
      (run cfgFull respV1 scenarioSearch emailOk' saveOk').notified =
        some (runLoop scenarioSearch
          (existingLinksOf (some respV1.body))).found_results) :=
  C3_notify_failure_no_put (by decide) (by decide) (by decide) (by decide)
    (by decide) (by decide) (by decide)

/-- C4: if every item any query returned carries no link, an empty link, or
a link already in the fetched seen set, the run terminates successfully with
no notification and no store write. -/
theorem C4_noop_when_nothing_new {cfg : Config} {resp : HttpResp}
    {search : String → Except Unit (List Item)} {emailOk saveOk : Bool}
    {ro : Option RemoteObj}
    (h1 : truthy cfg.gcp_api_key = true) (h2 : truthy cfg.cse_id = true)
    (h3 : truthy cfg.from_email = true) (h4 : truthy cfg.to_email = true)
    (hro : get_repo_file resp = .ok ro)
    (hseen : ∀ q ∈ QUERIES, ∀ it ∈ itemsOf (search q),
      it.link = none ∨ it.link = some "" ∨
      ∃ l, it.link = some l ∧ l ∈ existingLinksOf ro) :
    run cfg resp search emailOk saveOk = ⟨.ok (), none, none⟩ := by
  rw [run_eq_of_valid h1 h2 h3 h4 hro, runLoop_skip hseen]
  rfl

/-- C4 witness: second run of the end-to-end scenario, every link seen. -/
theorem C4_noop_when_nothing_new_witness :
    run cfgFull ⟨200, ⟨some "v2", some (JVal.jlist [job1, job2])⟩⟩
      scenarioSearch true true = ⟨.ok (), none, none⟩ :=
  @C4_noop_when_nothing_new cfgFull
    ⟨200, ⟨some "v2", some (JVal.jlist [job1, job2])⟩⟩ scenarioSearch true true
    (some ⟨some "v2", some (JVal.jlist [job1, job2])⟩)
    (by decide) (by decide) (by decide) (by decide) (by decide) (by decide)

/-- C6: a query whose search call raises is treated exactly as a query that
returned no items: the run is the same as the run in which that query's
result list is empty, so the remaining queries' results are still processed
and a single query failure never aborts the run. -/
theorem C6_partial_provider_failure {cfg : Config} {resp : HttpResp}
    {search : String → Except Unit (List Item)} {emailOk saveOk : Bool}
    {qA qB : String} {its : List Item}
    (hqA : qA ∈ QUERIES) (hqB : qB ∈ QUERIES) (hAB : qA ≠ qB)
    (hfail : search qA = .error ()) (hok : search qB = .ok its) :
    run cfg resp search emailOk saveOk =
      run cfg resp (patchEmpty search qA) emailOk saveOk := by
  apply run_search_congr
  intro st q
  unfold processQuery patchEmpty
  by_cases hq : q = qA
  · subst hq
    rw [hfail, if_pos rfl]
    rfl
  · rw [if_neg hq]

/-- C6 witness: query 1 raising, query 2 returning one item. -/
theorem C6_partial_provider_failure_witness :
    run cfgFull respV1
      (fun q => if q = query1 then .error () else .ok [⟨some job2, none, none⟩])
      true true =
    run cfgFull respV1
      (patchEmpty
        (fun q => if q = query1 then .error () else .ok [⟨some job2, none, none⟩])
        query1) true true :=
  @C6_partial_provider_failure cfgFull respV1
    (fun q => if q = query1 then .error () else .ok [⟨some job2, none, none⟩])
    true true query1 query2 [⟨some job2, none, none⟩]
    (by decide) (by decide) (by decide) (by decide) (by decide)

/-- C8: a fetched blob whose content is malformed JSON, or decodes to a
non-array value, is treated as the empty seen-link set — by
`load_sent_links`, and by `run`, whose behaviour on such a blob is
identical to its behaviour on an empty-array blob (in particular the run is
not failed). -/
theorem C8_malformed_blob_empty (sha : Option String) (cfg : Config)
    (search : String → Except Unit (List Item)) (emailOk saveOk : Bool) :
    existingLinksOf (some ⟨sha, none⟩) = [] ∧
    existingLinksOf (some ⟨sha, some JVal.jother⟩) = [] ∧
    load_sent_links ⟨200, ⟨sha, none⟩⟩ = .ok [] ∧
    load_sent_links ⟨200, ⟨sha, some JVal.jother⟩⟩ = .ok [] ∧
    run cfg ⟨200, ⟨sha, none⟩⟩ search emailOk saveOk =
      run cfg ⟨200, ⟨sha, some (JVal.jlist [])⟩⟩ search emailOk saveOk ∧
    run cfg ⟨200, ⟨sha, some JVal.jother⟩⟩ search emailOk saveOk =
      run cfg ⟨200, ⟨sha, some (JVal.jlist [])⟩⟩ search emailOk saveOk :=
  ⟨rfl, rfl, rfl, rfl, rfl, rfl⟩

/-- C10: an item without a link (absent or empty) is a no-op for the loop
state — it is not notified, not counted, and adds nothing to the seen set —
and a run behaves identically when all link-less items are filtered out of
every query's results. -/
theorem C10_linkless_items_skipped (q : String) (st : LoopState) (it : Item)
    (h : it.link = none ∨ it.link = some "") (cfg : Config) (resp : HttpResp)
    (search : String → Except Unit (List Item)) (emailOk saveOk : Bool) :
    processItem q st it = st ∧
    run cfg resp search emailOk saveOk =
      run cfg resp (filterSearch search) emailOk saveOk := by
  constructor
  · refine processItem_skip q st ?_
    rcases h with h | h
    · exact Or.inl h
    · exact Or.inr (Or.inl h)
  · apply run_search_congr
    intro st' q'
    unfold processQuery filterSearch
    cases hs : search q' with
    | ok its => exact (foldItems_filter q' its st').symm
    | error e => rfl

/-- C1: a link L returned by any query (in particular by two queries), not
previously seen, yields exactly one notification entry and exactly one copy
in the persisted list; in the spec's concrete scenario — prior state
`["https://a.com/job1"]` with version `"v1"`, query 1 returning job1 and
job2, query 2 returning job2 again — the put is invoked with
`["https://a.com/job1", "https://a.com/job2"]` and expected version `"v1"`,
and the single notified entry for job2 is attributed to query 1, which
returned it first. -/
theorem C1_cross_query_dedup :
    (∀ (cfg : Config) (resp : HttpResp)
      (search : String → Except Unit (List Item)) (emailOk saveOk : Bool)
      (ro : Option RemoteObj) (L q0 : String) (it : Item),
      get_repo_file resp = .ok ro → L ∉ existingLinksOf ro →
      q0 ∈ QUERIES → it ∈ itemsOf (search q0) → it.link = some L → L ≠ "" →
      List.count L ((runLoop search (existingLinksOf ro)).found_results.map
        FoundResult.link) = 1 ∧
      (∀ fr, (run cfg resp search emailOk saveOk).notified = some fr →
        List.count L (fr.map FoundResult.link) = 1) ∧
      (∀ lst sh, (run cfg resp search emailOk saveOk).putCall = some (lst, sh) →
        lst.count L = 1)) ∧
    (run cfgFull respV1 scenarioSearch true true).putCall =
      some ([job1, job2], some "v1") ∧
    (run cfgFull respV1 scenarioSearch true true).notified =
      some [⟨query1, some "X", some "Y", job2⟩] := by
  refine ⟨?_, by decide, by decide⟩
  intro cfg resp search emailOk saveOk ro L q0 it hro hnew hq hit hl hne
  have hinv := loopInv_runLoop search (existingLinksOf ro)
  have hmem : L ∈ (runLoop search (existingLinksOf ro)).found_results.map
      FoundResult.link := link_mem_found_runLoop hq hit hl hne hnew
  have hcount := List.count_eq_one_of_mem hinv.nodup_found hmem
  refine ⟨hcount, ?_, ?_⟩
  · intro fr hfr
    obtain ⟨ro', hro', hfr', _⟩ := run_notified_eq hfr
    have hroro : ro' = ro := Except.ok.inj (hro'.symm.trans hro)
    rw [hroro] at hfr'
    rw [hfr']
    exact hcount
  · intro lst sh hput
    obtain ⟨ro', hro', _, hp⟩ := run_putCall_eq hput
    have hroro : ro' = ro := Except.ok.inj (hro'.symm.trans hro)
    rw [hroro] at hp
    have hlst : lst = sortedLinks (runLoop search (existingLinksOf ro)).sent_set :=
      congrArg Prod.fst hp
    have hsent : L ∈ (runLoop search (existingLinksOf ro)).sent_set :=
      (hinv.mem_sent_iff L).2 (Or.inr hmem)
    rw [hlst, (sortedLinks_perm _).count_eq]
    exact List.count_eq_one_of_mem hinv.nodup_sent hsent

/-- C1 witness: the persisted-count conclusion at the scenario input. -/
theorem C1_cross_query_dedup_witness : List.count job2 [job1, job2] = 1 :=
  (C1_cross_query_dedup.1 cfgFull respV1 scenarioSearch true true
      (some respV1.body) job2 query1 ⟨some job2, some "X", some "Y"⟩
      (by decide) (by decide) (by decide) (by decide) (by decide)
      (by decide)).2.2 [job1, job2] (some "v1") (by decide)

/-- C2: a link already in the fetched seen set never appears among the new
items (hence never in any notified list) and occurs exactly once — in
particular without a second copy — in any persisted list. -/
theorem C2_seen_links_not_rediscovered {cfg : Config} {resp : HttpResp}
    {search : String → Except Unit (List Item)} {emailOk saveOk : Bool}
    {ro : Option RemoteObj} {L : String}
    (hro : get_repo_file resp = .ok ro) (hL : L ∈ existingLinksOf ro) :
    L ∉ (runLoop search (existingLinksOf ro)).found_results.map
      FoundResult.link ∧
    (∀ fr, (run cfg resp search emailOk saveOk).notified = some fr →
      L ∉ fr.map FoundResult.link) ∧
    (∀ lst sh, (run cfg resp search emailOk saveOk).putCall = some (lst, sh) →
      lst.count L = 1) := by
  have hinv := loopInv_runLoop search (existingLinksOf ro)
  have hnf : L ∉ (runLoop search (existingLinksOf ro)).found_results.map
      FoundResult.link := by
    intro hmem
    obtain ⟨r, hr, hlink⟩ := List.mem_map.1 hmem
    exact hinv.found_notin_base r hr (by rw [hlink]; exact hL)
  refine ⟨hnf, ?_, ?_⟩
  · intro fr hfr
    obtain ⟨ro', hro', hfr', _⟩ := run_notified_eq hfr
    have hroro : ro' = ro := Except.ok.inj (hro'.symm.trans hro)
    rw [hroro] at hfr'
    rw [hfr']
    exact hnf
  · intro lst sh hput
    obtain ⟨ro', hro', _, hp⟩ := run_putCall_eq hput
    have hroro : ro' = ro := Except.ok.inj (hro'.symm.trans hro)
    rw [hroro] at hp
    have hlst : lst = sortedLinks (runLoop search (existingLinksOf ro)).sent_set :=
      congrArg Prod.fst hp
    have hsent : L ∈ (runLoop search (existingLinksOf ro)).sent_set :=
      (hinv.mem_sent_iff L).2 (Or.inl hL)
    rw [hlst, (sortedLinks_perm _).count_eq]
    exact List.count_eq_one_of_mem hinv.nodup_sent hsent

/-- C2 witness: job1 is in the fetched set of the scenario and is persisted
exactly once. -/
theorem C2_seen_links_not_rediscovered_witness :
    List.count job1 [job1, job2] = 1 :=
  (@C2_seen_links_not_rediscovered cfgFull respV1 scenarioSearch true true
    (some respV1.body) job1 (by decide) (by decide)).2.2
    [job1, job2] (some "v1") (by decide)

/-- C5: a 404 fetch yields the empty seen set with no version token instead
of an error, while any other 4xx/5xx (error) response makes `get_repo_file`
raise, and a run with valid base configuration then aborts with the store
error, notifying nothing and writing nothing. -/
theorem C5_fetch_not_found_vs_error (resp : HttpResp) (cfg : Config)
    (search : String → Except Unit (List Item)) (emailOk saveOk : Bool) :
    (resp.status = 404 →
      get_repo_file resp = .ok none ∧
      load_sent_links resp = .ok [] ∧
      existingLinksOf none = [] ∧ remoteShaOf none = none) ∧
    (400 ≤ resp.status → resp.status < 600 → resp.status ≠ 404 →
      get_repo_file resp = .error () ∧
      (truthy cfg.gcp_api_key = true → truthy cfg.cse_id = true →
        truthy cfg.from_email = true → truthy cfg.to_email = true →
        run cfg resp search emailOk saveOk =
          ⟨.error .storeError, none, none⟩)) := by
  constructor
  · intro h404
    have hg : get_repo_file resp = .ok none := by
      unfold get_repo_file
      rw [if_neg (by omega), if_pos h404]
    refine ⟨hg, ?_, rfl, rfl⟩
    unfold load_sent_links
    rw [hg]
    rfl
  · intro hlo hhi h404
    have hg : get_repo_file resp = .error () := by
      unfold get_repo_file
      rw [if_neg (by omega), if_neg h404, if_pos ⟨hlo, hhi⟩]
    refine ⟨hg, ?_⟩
    intro hc1 hc2 hc3 hc4
    unfold run
    rw [hc1, hc2, hc3, hc4, hg]
    rfl

/-- C5 witness: status 404 is treated as empty state; status 500 raises and
makes the run abort with the store error. -/
theorem C5_fetch_not_found_vs_error_witness :
    get_repo_file resp404 = .ok none ∧
    get_repo_file ⟨500, ⟨none, none⟩⟩ = .error () ∧
    run cfgFull ⟨500, ⟨none, none⟩⟩ emptySearch true true =
      ⟨.error .storeError, none, none⟩ :=
  ⟨((C5_fetch_not_found_vs_error resp404 cfgFull emptySearch true true).1
      rfl).1,
   ((C5_fetch_not_found_vs_error ⟨500, ⟨none, none⟩⟩ cfgFull emptySearch true
      true).2 (by decide) (by decide) (by decide)).1,
   ((C5_fetch_not_found_vs_error ⟨500, ⟨none, none⟩⟩ cfgFull emptySearch true
      true).2 (by decide) (by decide) (by decide)).2 (by decide) (by decide)
      (by decide) (by decide)⟩

/-- C7 counterexample: with every transport credential absent (no SendGrid
key, no SMTP host/user/pass) the run is not stopped at startup — a run that
finds nothing new terminates successfully, and a run that finds a new item
proceeds through the state fetch and the searches and only then fails, at
the notification step. -/
theorem C7_missing_transport_counterexample :
    (run cfgNoTransport resp404 emptySearch true true).outcome = .ok () ∧
    (run cfgNoTransport respV1 scenarioSearch true true).outcome =
      .error (.notifyError .missingConfig) ∧
    (run cfgNoTransport respV1 scenarioSearch true true).notified =
      some [⟨query1, some "X", some "Y", job2⟩] ∧
    (run cfgNoTransport respV1 scenarioSearch true true).putCall = none :=
  ⟨by decide, by decide, by decide, by decide⟩

/-- C7 amended: absence of the search credentials or of the sender or
recipient address is a startup fatal error, before any fetch, search or
send. Absence of the selected transport's credentials is checked only when
a notification is attempted: with them missing, a run discovering nothing
terminates successfully, and a run discovering new items fails at the
notify step with no store write. -/
theorem C7_config_check_amended :
    (∀ (cfg : Config) (resp : HttpResp)
      (search : String → Except Unit (List Item)) (emailOk saveOk : Bool),
      ((truthy cfg.gcp_api_key && truthy cfg.cse_id) = false ∨
        (truthy cfg.from_email && truthy cfg.to_email) = false) →
      run cfg resp search emailOk saveOk =
        ⟨.error .configError, none, none⟩) ∧
    (∀ (cfg : Config) (resp : HttpResp)
      (search : String → Except Unit (List Item)) (emailOk saveOk : Bool)
      (ro : Option RemoteObj),
      truthy cfg.gcp_api_key = true → truthy cfg.cse_id = true →
      truthy cfg.from_email = true → truthy cfg.to_email = true →
      truthy cfg.sendgrid_api_key = false →
      (truthy cfg.smtp_host && truthy cfg.smtp_user && truthy cfg.smtp_pass)
        = false →
      get_repo_file resp = .ok ro →
      (((runLoop search (existingLinksOf ro)).found_results = [] →
        run cfg resp search emailOk saveOk = ⟨.ok (), none, none⟩) ∧
      ((runLoop search (existingLinksOf ro)).found_results ≠ [] →
        (run cfg resp search emailOk saveOk).outcome =
          .error (.notifyError .missingConfig) ∧
        (run cfg resp search emailOk saveOk).putCall = none))) := by
  constructor
  · intro cfg resp search emailOk saveOk h
    rcases h with h | h
    · unfold run
      rw [h]
      rfl
    · unfold run
      cases hgc : (truthy cfg.gcp_api_key && truthy cfg.cse_id) with
      | false => rfl
      | true =>
        rw [h]
        rfl
  · intro cfg resp search emailOk saveOk ro h1 h2 h3 h4 hsg hsmtp hro
    have hsend : send_email cfg emailOk = .error .missingConfig := by
      unfold send_email
      rw [hsg, hsmtp]
      rfl
    constructor
    · intro hempty
      rw [run_eq_of_valid h1 h2 h3 h4 hro, if_pos hempty]
    · intro hne
      rw [run_eq_of_valid h1 h2 h3 h4 hro, if_neg hne, hsend]
      exact ⟨rfl, rfl⟩

/-- C7 witness: the amended behaviour at concrete inputs — missing search
key fails at startup; missing transport credentials succeed when nothing is
new. -/
theorem C7_config_check_amended_witness :
    run ⟨none, some "cx", some "f@x", some "t@x", some "h", some "u",
        some "p", none⟩ respV1 scenarioSearch true true =
      ⟨.error .configError, none, none⟩ ∧
    run cfgNoTransport resp404 emptySearch true true = ⟨.ok (), none, none⟩ :=
  ⟨C7_config_check_amended.1 _ respV1 scenarioSearch true true (Or.inl rfl),
   (C7_config_check_amended.2 cfgNoTransport resp404 emptySearch true true
      none (by decide) (by decide) (by decide) (by decide) (by decide)
      (by decide) (by decide)).1 (by decide)⟩

/-- C9: every list handed to `save_sent_links` is in ascending string order
(pairwise, by code point — Python's string comparison) and has no duplicate
entries. -/
theorem C9_persisted_list_sorted_nodup {cfg : Config} {resp : HttpResp}
    {search : String → Except Unit (List Item)} {emailOk saveOk : Bool}
    {lst : List String} {sh : Option String}
    (h : (run cfg resp search emailOk saveOk).putCall = some (lst, sh)) :
    lst.Pairwise (fun a b => strLe a b = true) ∧ lst.Nodup := by
  obtain ⟨ro, hro, hne, hp⟩ := run_putCall_eq h
  have hlst : lst = sortedLinks (runLoop search (existingLinksOf ro)).sent_set :=
    congrArg Prod.fst hp
  constructor
  · rw [hlst]
    exact sortedLinks_pairwise _
  · rw [hlst]
    exact ((sortedLinks_perm _).nodup_iff).2
      (loopInv_runLoop search (existingLinksOf ro)).nodup_sent

/-- C9 witness: the scenario's persisted list is sorted and duplicate-free. -/
theorem C9_persisted_list_sorted_nodup_witness :
    ([job1, job2] : List String).Pairwise (fun a b => strLe a b = true) ∧
    ([job1, job2] : List String).Nodup :=
  @C9_persisted_list_sorted_nodup cfgFull respV1 scenarioSearch true true
    [job1, job2] (some "v1") (by decide)

/-- C10 witness: a title-only item is skipped; a concrete run is unchanged
by filtering. -/
theorem C10_linkless_items_skipped_witness :
    processItem query1 ⟨[], [], []⟩ ⟨none, some "t", some "s"⟩ = ⟨[], [], []⟩ ∧
    run cfgFull respV1 scenarioSearch true true =
      run cfgFull respV1 (filterSearch scenarioSearch) true true :=
  C10_linkless_items_skipped query1 ⟨[], [], []⟩ ⟨none, some "t", some "s"⟩
    (Or.inl rfl) cfgFull respV1 scenarioSearch true true
